import Mathlib

/-!
Shallow embedding of `src/syfertext/token.py` (class `Token`) together with
the external collaborators it touches (string store, vector table, workers,
pointer construction, SMPC share distribution), and proofs of the claims
about it.

Conventions of the embedding:
* numeric vectors are lists of integers (`Vec`);
* fallible operations return `Except TokenError`;
* operations that the spec describes as producing network traffic return an
  explicit event trace (`List Event`);
* mutation of the custom-attribute bag is explicit state passing: the Python
  `setattr` on the Underscore object becomes a dictionary update on an
  association list.
-/

namespace SyferText

/-- A numeric embedding vector. -/
abbrev Vec := List Int

/-- Typed failures of the token operations (spec section 7 taxonomy). -/
inductive TokenError where
  | vectorNotFound
  | insufficientParties
deriving DecidableEq, Repr

/-- A worker participating in the distributed object model. -/
structure BaseWorker where
  wid : Nat
deriving DecidableEq, Repr

/-- Values held in the open-ended custom attribute bag
(spec section 9: tagged union of string, number, boolean). -/
inductive AttrValue where
  | str (s : String)
  | num (n : Int)
  | flag (b : Bool)
deriving DecidableEq, Repr

/-- Dictionary update on an association list: overwrite the entry for key
`n` if present, otherwise append it.  This is the embedding of Python
`setattr` on the Underscore object, whose attribute dictionary keeps one
entry per name. -/
def updateAttr : List (String × AttrValue) → String → AttrValue → List (String × AttrValue)
  | [], n, v => [(n, v)]
  | (k, w) :: rest, n, v =>
      if k = n then (n, v) :: rest else (k, w) :: updateAttr rest n v

/-- The string-interning store: resolves an interned integer key back to
text (`vocab.store[orth]` in the source). -/
structure StringStore where
  resolve : Nat → String

/-- The pretrained-embedding table (`vocab.vectors`).  Its own code is not
among the sampled sources; its interface is taken from the spec:
`vector_for(text) -> numeric vector | absent` and
`has_vector(text) -> bool`. -/
structure Vectors where
  data : List (String × Vec)

/-- VectorTable lookup: the vector stored for `text`, if any. -/
def Vectors.vector_for (vs : Vectors) (text : String) : Option Vec :=
  vs.data.lookup text

/-- Source `vectors.has_vector(text)` from the source (line 41). -/
def Vectors.has_vector (vs : Vectors) (text : String) : Bool :=
  (vs.vector_for text).isSome

/-- Modelled from the spec: the behaviour of `vocab.vectors[text]`
(`Vectors.__getitem__`, absent from the sampled sources).  Per spec
section 4.1 the vector accessor "fails with `VectorNotFoundError` if
`has_vector` is false", so an absent text yields a typed error and a
present text yields its stored vector. -/
def Vectors.getItem (vs : Vectors) (text : String) : Except TokenError Vec :=
  match vs.vector_for text with
  | some v => Except.ok v
  | none => Except.error TokenError.vectorNotFound

/-- The vocabulary object reached through `doc.vocab`. -/
structure Vocab where
  store : StringStore
  vectors : Vectors

/-- The owning document: exposes `vocab` and the text buffer the token
positions index into (source comment at lines 27-29: "The start and stop
positions of the token in self.text"). -/
structure Doc where
  vocab : Vocab
  text : String

/-- The per-token metadata object (`TokenMeta`) consumed by the `Token`
constructor: interned text key `orth`, span positions, whitespace flags and
the initial Underscore attribute bag, exactly the fields `Token.__init__`
reads. -/
structure TokenMeta where
  orth : Nat
  start_pos : Nat
  end_pos : Option Nat
  is_space : Bool
  space_after : Bool
  underscore : List (String × AttrValue)

/-- The `Token` object: the fields assigned by `Token.__init__`
(lines 17-41 of the source) plus the `id` and `owner` inherited from
`AbstractObject`. -/
structure Token where
  doc : Doc
  orth : Nat
  start_pos : Nat
  stop_pos : Option Nat
  is_space : Bool
  space_after : Bool
  underscore : List (String × AttrValue)
  has_vector : Bool
  id : Nat
  owner : BaseWorker

/-- Source `Token.__init__` (lines 17-41): copies the metadata fields, sets
`stop_pos = end_pos + 1` when an end position is defined and leaves it
undefined otherwise, and caches `has_vector` from the vector table at the
token's text. -/
def Token.init (doc : Doc) (meta : TokenMeta) (id : Nat) (owner : BaseWorker) : Token :=
  { doc := doc
    orth := meta.orth
    start_pos := meta.start_pos
    stop_pos := match meta.end_pos with
      | some e => some (e + 1)
      | none => none
    is_space := meta.is_space
    space_after := meta.space_after
    underscore := meta.underscore
    has_vector := doc.vocab.vectors.has_vector (doc.vocab.store.resolve meta.orth)
    id := id
    owner := owner }

/-- Source `Token.text` (lines 56-59): resolve `orth` through the document's
string store. -/
def Token.text (tok : Token) : String :=
  tok.doc.vocab.store.resolve tok.orth

/-- Source `Token.__len__` (lines 65-67): character count of the text. -/
def Token.len (tok : Token) : Nat :=
  tok.text.length

/-- Source `Token.text_with_ws` (lines 69-76): the text plus one trailing space
when `space_after` holds. -/
def Token.text_with_ws (tok : Token) : String :=
  if tok.space_after then tok.text ++ " " else tok.text

/-- Source `Token.set_attribute` (lines 49-54): `setattr(self._, name, value)`,
i.e. a dictionary update of the custom attribute bag; every other field of
the token is untouched. -/
def Token.set_attribute (tok : Token) (name : String) (value : AttrValue) : Token :=
  { tok with underscore := updateAttr tok.underscore name value }

/-- Reading a custom attribute back from the Underscore bag
(`getattr(self._, name)`). -/
def Token.get_attribute (tok : Token) (name : String) : Option AttrValue :=
  tok.underscore.lookup name

/-- A sequence of `set_attribute` calls applied in order. -/
def Token.applyAttrs (tok : Token) (l : List (String × AttrValue)) : Token :=
  l.foldl (fun t p => t.set_attribute p.1 p.2) tok

/-- Source `Token.vector` (lines 81-84): `self.doc.vocab.vectors[self.text]`. -/
def Token.vector (tok : Token) : Except TokenError Vec :=
  tok.doc.vocab.vectors.getItem tok.text

/-- Observable side effects of the encrypted-vector operation: the vector
table lookup, and one share-distribution message per participant worker
(spec section 6, network boundary). -/
inductive Event where
  | vectorLookup (text : String)
  | shareDistributed (w : BaseWorker)
deriving DecidableEq, Repr

/-- Modelled from the spec: the fixed-precision encoding performed by
`vector.fix_precision()` (torch/syft backend, not among the sampled
sources).  Spec section 4.3, ENCODING: the plaintext vector is mapped to a
finite-ring integer representation; the default configuration scales by
base 10 to the power of a fixed fractional precision of 3. -/
def fix_precision (v : Vec) : Vec :=
  v.map (fun x => x * 1000)

/-- Modelled from the spec: the opaque secret-shared value produced by
`.share(*workers, ...)` (syft backend, not among the sampled sources).
Spec sections 3 and 4.3: the output wraps the encoded plaintext together
with the participant identities, the crypto-coordination party and the
gradient-compatibility flag. -/
structure SharedVector where
  plaintext : Vec
  participants : List BaseWorker
  crypto_provider : Option BaseWorker
  requires_grad : Bool
deriving DecidableEq, Repr

/-- Modelled from the spec: share distribution (spec section 4.3, SHARING):
one share-distribution message is sent to each participant worker, and the
session output wraps the encoded plaintext plus metadata. -/
def share (encoded : Vec) (workers : List BaseWorker) (crypto_provider : Option BaseWorker)
    (requires_grad : Bool) : SharedVector × List Event :=
  (⟨encoded, workers, crypto_provider, requires_grad⟩,
    workers.map Event.shareDistributed)

/-- Source `Token.get_encrypted_vector` (lines 86-113): first asserts
`len(workers) > 1` (raising before anything else happens when the check
fails), then looks up `self.doc.vocab.vectors[self.text]`, encodes it with
fixed precision and secret-shares it across the workers.  Returns the
result together with the trace of lookup and share-distribution events;
the trace is empty when the participant-count assertion fails. -/
def Token.get_encrypted_vector (tok : Token) (workers : List BaseWorker)
    (crypto_provider : Option BaseWorker) (requires_grad : Bool) :
    Except TokenError SharedVector × List Event :=
  if workers.length > 1 then
    match tok.doc.vocab.vectors.getItem tok.text with
    | Except.ok v =>
        let p := share (fix_precision v) workers crypto_provider requires_grad
        (Except.ok p.1, Event.vectorLookup tok.text :: p.2)
    | Except.error e => (Except.error e, [Event.vectorLookup tok.text])
  else
    (Except.error TokenError.insufficientParties, [])

/-- The `TokenPointer` value constructed by `Token.create_pointer`
(lines 140-146): target location, identifier at the location, owning
worker, the pointer's own identifier and the garbage-collection flag. -/
structure TokenPointer where
  location : Option BaseWorker
  id_at_location : Nat
  owner : BaseWorker
  id : Option Nat
  garbage_collect_data : Bool
deriving DecidableEq, Repr

/-- Source `Token.create_pointer` (lines 115-148): defaults `id_at_location` to
the token's own identifier and `owner` to the token's owner when those
arguments are absent, then constructs a `TokenPointer`.  The `register`
argument is accepted but never read by the source. -/
def Token.create_pointer (token : Token) (location : Option BaseWorker)
    (id_at_location : Option Nat) ( register : Bool) (owner : Option BaseWorker)
    (ptr_id : Option Nat) (garbage_collect_data : Bool) : TokenPointer :=
  let idal := id_at_location.getD token.id
  let ow := owner.getD token.owner
  { location := location
    id_at_location := idal
    owner := ow
    id := ptr_id
    garbage_collect_data := garbage_collect_data }

/-- A per-worker object registry (spec section 3): identifiers mapped to
live objects, with reference counts. -/
structure ObjectRegistry where
  objects : List (Nat × Token)
  refcounts : List (Nat × Nat)

/-- The mutable cross-worker state that pointer operations could touch:
every worker's object registry. -/
structure WorldState where
  registries : BaseWorker → ObjectRegistry

/-- Source `Token.create_pointer` with the worker state threaded explicitly.  The
source body only constructs and returns a `TokenPointer`: it reads no
registry and writes no registry (`TokenPointer.__init__` itself is absent
from the sampled sources and is modelled from the spec, section 4.2:
"Registers nothing by itself — registration is the caller's responsibility").
The state is therefore returned unchanged. -/
def Token.create_pointer_st (world : WorldState) (token : Token)
    (location : Option BaseWorker) (id_at_location : Option Nat) ( register : Bool)
    (owner : Option BaseWorker) (ptr_id : Option Nat) (garbage_collect_data : Bool) :
    TokenPointer × WorldState :=
  (token.create_pointer location id_at_location register owner ptr_id garbage_collect_data,
    world)

/-- The document text covered by the half-open character span `[a, b)`. -/
def Doc.spanText (doc : Doc) (a b : Nat) : String :=
  String.mk ((doc.text.toList.drop a).take (b - a))

/- Concrete fixtures used by the witness theorems. -/

/-- A store interning key 1 to the text Alice and key 2 to the text Bob. -/
def sampleStore : StringStore :=
  ⟨fun k => if k = 1 then ("Alice") else if k = 2 then ("Bob") else if k = 3 then (" ") else ("")⟩

/-- A vector table holding a 4-dimensional vector for Alice and nothing
else. -/
def sampleVectors : Vectors :=
  ⟨[(("Alice"), [1, 2, 3, 4])]⟩

/-- A document whose text is the string Alice Bob. -/
def sampleDoc : Doc :=
  ⟨⟨sampleStore, sampleVectors⟩, "Alice Bob"⟩

/-- Metadata for the token Alice: span characters 0 to 4, a space after. -/
def sampleMeta : TokenMeta :=
  ⟨1, 0, some 4, false, true, []⟩

/-- Metadata for the token Bob: span characters 6 to 8, no space after. -/
def sampleMetaBob : TokenMeta :=
  ⟨2, 6, some 8, false, false, []⟩

/-- Metadata for a pure-whitespace token: character 5 of the sample text,
`is_space` true, no space after. -/
def sampleMetaSpace : TokenMeta :=
  ⟨3, 5, some 5, true, false, []⟩

/-- A sample worker. -/
def workerA : BaseWorker := ⟨0⟩

/-- A second sample worker. -/
def workerB : BaseWorker := ⟨1⟩

/-- The token Alice constructed through `Token.init` over the sample
document. -/
def sampleToken : Token :=
  Token.init sampleDoc sampleMeta 7 workerA

/-- The token Bob, which has no vector, constructed through `Token.init`
over the sample document. -/
def sampleTokenBob : Token :=
  Token.init sampleDoc sampleMetaBob 8 workerA

/-- An empty world state for the pointer frame witness. -/
def emptyWorld : WorldState :=
  ⟨fun _ => ⟨[], []⟩⟩

/- Helper lemmas shared by the claim theorems. -/

/-- Looking up a key right after a dictionary update on that key returns
the written value. -/
theorem lookup_updateAttr_self (l : List (String × AttrValue)) (n : String) (v : AttrValue) :
    (updateAttr l n v).lookup n = some v := by
  induction l with
  | nil => simp [updateAttr, List.lookup]
  | cons hd tl ih =>
    obtain ⟨k, w⟩ := hd
    by_cases hk : k = n
    · simp [updateAttr, hk, List.lookup]
    · have hk2 : (n == k) = false := by
        simp [beq_iff_eq]
        intro he
        exact hk he.symm
      simp [updateAttr, hk, List.lookup, hk2, ih]

/-- C1: with fewer than two participant workers, `get_encrypted_vector`
fails with the insufficient-parties error, and its event trace is empty:
no vector lookup is performed and no share is distributed, because the
participant-count assertion runs before any other step. -/
theorem get_encrypted_vector_rejects_single_party (tok : Token) (workers : List BaseWorker)
    (cp : Option BaseWorker) (rg : Bool) (h : workers.length < 2) :
    tok.get_encrypted_vector workers cp rg =
      (Except.error TokenError.insufficientParties, ([] : List Event)) := by
  have h1 : ¬ workers.length > 1 := by omega
  unfold Token.get_encrypted_vector
  rw [if_neg h1]

/-- Witness for C1: one single worker is fewer than two, and on the sample
token the operation fails with the insufficient-parties error and an empty
event trace. -/
theorem get_encrypted_vector_rejects_single_party_witness :
    [workerA].length < 2 ∧
      sampleToken.get_encrypted_vector [workerA] none true =
        (Except.error TokenError.insufficientParties, ([] : List Event)) :=
  ⟨by decide,
    get_encrypted_vector_rejects_single_party sampleToken [workerA] none true (by decide)⟩

/-- C2: for a token as constructed by `Token.__init__`, if the cached
`has_vector` flag is false then the vector accessor fails with the typed
vector-not-found error, and if the flag is true then the accessor returns
exactly the vector the table stores for the token's text. -/
theorem vector_accessor_policy (doc : Doc) (meta : TokenMeta) (i : Nat) (ow : BaseWorker) :
    ((Token.init doc meta i ow).has_vector = false →
      (Token.init doc meta i ow).vector = Except.error TokenError.vectorNotFound) ∧
    ((Token.init doc meta i ow).has_vector = true →
      ∃ v, doc.vocab.vectors.vector_for (Token.init doc meta i ow).text = some v ∧
        (Token.init doc meta i ow).vector = Except.ok v) := by
  cases hv : doc.vocab.vectors.vector_for (doc.vocab.store.resolve meta.orth) with
  | none =>
    constructor
    · intro _
      simp [Token.vector, Vectors.getItem, Token.text, Token.init, hv]
    · intro h
      simp [Token.init, Vectors.has_vector, hv] at h
  | some v =>
    constructor
    · intro h
      simp [Token.init, Vectors.has_vector, hv] at h
    · intro _
      exact ⟨v, by simp [Token.text, Token.init, hv],
        by simp [Token.vector, Vectors.getItem, Token.text, Token.init, hv]⟩

/-- Witness for C2: the sample token Bob has no vector and its accessor
fails with the typed error; raising the error is forced by the theorem
applied at this concrete token. -/
theorem vector_accessor_policy_witness :
    (Token.init sampleDoc sampleMetaBob 8 workerA).has_vector = false ∧
      (Token.init sampleDoc sampleMetaBob 8 workerA).vector =
        Except.error TokenError.vectorNotFound :=
  ⟨by decide, (vector_accessor_policy sampleDoc sampleMetaBob 8 workerA).1 (by decide)⟩

/-- C3: a token constructed from document metadata has
`stop_pos = end_pos + 1` when the metadata defines an end position and an
undefined `stop_pos` otherwise, and its `start_pos` is the metadata's start
position unchanged. -/
theorem init_positions (doc : Doc) (meta : TokenMeta) (i : Nat) (ow : BaseWorker) :
    (Token.init doc meta i ow).stop_pos = meta.end_pos.map (fun e => e + 1) ∧
      (Token.init doc meta i ow).start_pos = meta.start_pos := by
  refine ⟨?_, rfl⟩
  cases hm : meta.end_pos with
  | none => simp [Token.init, hm]
  | some e => simp [Token.init, hm]

/-- C4: `create_pointer`, threaded through the explicit worker state (all
object registries), returns that state unchanged for every combination of
arguments, the `register = true` case included: it only constructs and
returns a pointer value. -/
theorem create_pointer_frame (world : WorldState) (token : Token) (loc : Option BaseWorker)
    (ial : Option Nat) (reg : Bool) (ow : Option BaseWorker) (pid : Option Nat) (gc : Bool) :
    (Token.create_pointer_st world token loc ial reg ow pid gc).2 = world := rfl

/-- C5: `create_pointer` defaults `id_at_location` to the token's own
identifier when that argument is absent and `owner` to the token's owner
when that argument is absent; supplied values are used unchanged. -/
theorem create_pointer_defaults (token : Token) (loc : Option BaseWorker) (ial : Option Nat)
    (reg : Bool) (ow : Option BaseWorker) (pid : Option Nat) (gc : Bool) (x : Nat)
    (w : BaseWorker) :
    (Token.create_pointer token loc none reg ow pid gc).id_at_location = token.id ∧
    (Token.create_pointer token loc ial reg none pid gc).owner = token.owner ∧
    (Token.create_pointer token loc (some x) reg ow pid gc).id_at_location = x ∧
    (Token.create_pointer token loc ial reg (some w) pid gc).owner = w :=
  ⟨rfl, rfl, rfl, rfl⟩

/-- C6: `text_with_ws` equals the text followed by exactly one space if
and only if `space_after` is true, and equals the text exactly when
`space_after` is false; in particular a pure-whitespace token without a
trailing space satisfies `text_with_ws = text`. -/
theorem text_with_ws_spec (tok : Token) :
    (tok.text_with_ws = tok.text ++ " " ↔ tok.space_after = true) ∧
    (tok.space_after = false → tok.text_with_ws = tok.text) := by
  unfold Token.text_with_ws
  cases hsp : tok.space_after with
  | true =>
    exact ⟨⟨fun _ => rfl, fun _ => rfl⟩, fun h => absurd h (by decide)⟩
  | false =>
    constructor
    · constructor
      · intro h
        have h2 : tok.text = tok.text ++ " " := h
        have hl := congrArg String.length h2
        rw [String.length_append] at hl
        have hone : (" " : String).length = 1 := rfl
        rw [hone] at hl
        exact absurd hl (by omega)
      · intro h
        exact absurd h (by decide)
    · intro _
      rfl

/-- Witness for C6: the sample whitespace token has `space_after` false
and its `text_with_ws` equals its text, by the theorem at this concrete
token. -/
theorem text_with_ws_spec_witness :
    (Token.init sampleDoc sampleMetaSpace 9 workerA).space_after = false ∧
      (Token.init sampleDoc sampleMetaSpace 9 workerA).text_with_ws =
        (Token.init sampleDoc sampleMetaSpace 9 workerA).text :=
  ⟨rfl, (text_with_ws_spec (Token.init sampleDoc sampleMetaSpace 9 workerA)).2 rfl⟩

/-- C7: two successive `set_attribute` calls on the same name leave the
attribute bag holding the second value for that name (last write wins),
whether or not the name was ever present before. -/
theorem set_attribute_last_write_wins (tok : Token) (name : String) (v1 v2 : AttrValue) :
    ((tok.set_attribute name v1).set_attribute name v2).get_attribute name = some v2 := by
  simp [Token.set_attribute, Token.get_attribute, lookup_updateAttr_self]

/-- C8: an arbitrary sequence of `set_attribute` calls changes only the
custom-attribute bag: `doc`, `orth`, `start_pos`, `stop_pos`, `is_space`,
`space_after`, `has_vector`, `id` and `owner` are all unchanged.  (Every
other token operation is embedded as a pure function out of `Token`,
mirroring that the source only ever assigns through `self._`.) -/
theorem set_attribute_frame (tok : Token) (l : List (String × AttrValue)) :
    (tok.applyAttrs l).doc = tok.doc ∧ (tok.applyAttrs l).orth = tok.orth ∧
    (tok.applyAttrs l).start_pos = tok.start_pos ∧
    (tok.applyAttrs l).stop_pos = tok.stop_pos ∧
    (tok.applyAttrs l).is_space = tok.is_space ∧
    (tok.applyAttrs l).space_after = tok.space_after ∧
    (tok.applyAttrs l).has_vector = tok.has_vector ∧
    (tok.applyAttrs l).id = tok.id ∧ (tok.applyAttrs l).owner = tok.owner := by
  induction l generalizing tok with
  | nil => exact ⟨rfl, rfl, rfl, rfl, rfl, rfl, rfl, rfl, rfl⟩
  | cons hd tl ih => exact ih (tok.set_attribute hd.1 hd.2)

/-- C9: when the document text covered by the half-open span from
`start_pos` to `stop_pos` lies inside the text buffer and equals the
token's own resolved text, `stop_pos - start_pos` equals the token's
length (the character count of its text). -/
theorem span_length (tok : Token) (sp : Nat) (h1 : tok.stop_pos = some sp)
    (h2 : sp ≤ tok.doc.text.length)
    (h3 : tok.doc.spanText tok.start_pos sp = tok.text) :
    sp - tok.start_pos = tok.len := by
  have hmk : ((tok.doc.text.toList.drop tok.start_pos).take (sp - tok.start_pos)).length
      = tok.text.length := congrArg String.length h3
  rw [List.length_take, List.length_drop] at hmk
  have hlen : tok.doc.text.toList.length = tok.doc.text.length := rfl
  rw [hlen] at hmk
  unfold Token.len
  omega

/-- Witness for C9: the sample token Alice spans characters 0 to 5 of the
sample document, that slice is its text, and the span length equals its
text length by the theorem at this concrete token. -/
theorem span_length_witness :
    sampleToken.stop_pos = some 5 ∧ 5 ≤ sampleToken.doc.text.length ∧
      sampleToken.doc.spanText sampleToken.start_pos 5 = sampleToken.text ∧
      5 - sampleToken.start_pos = sampleToken.len :=
  ⟨rfl, by decide, by decide, span_length sampleToken 5 rfl (by decide) (by decide)⟩

/-- C10: with at least two participants, the result of
`get_encrypted_vector` is exactly the vector accessor's result mapped
through encode-and-share: the internal table lookup succeeds exactly when
the accessor succeeds, and the plaintext wrapped by the shares is the
fixed-precision encoding of the accessor's vector. -/
theorem get_encrypted_vector_refines_vector (tok : Token) (workers : List BaseWorker)
    (cp : Option BaseWorker) (rg : Bool) (h : 2 ≤ workers.length) :
    (tok.get_encrypted_vector workers cp rg).1 =
      Except.map (fun v => (share (fix_precision v) workers cp rg).1) tok.vector ∧
    (∀ v, tok.vector = Except.ok v →
      ∃ sv, (tok.get_encrypted_vector workers cp rg).1 = Except.ok sv ∧
        sv.plaintext = fix_precision v) := by
  have h1 : workers.length > 1 := h
  constructor
  · unfold Token.get_encrypted_vector Token.vector
    rw [if_pos h1]
    cases hv : tok.doc.vocab.vectors.getItem tok.text with
    | ok v => simp [Except.map]
    | error e => simp [Except.map]
  · intro v hok
    refine ⟨(share (fix_precision v) workers cp rg).1, ?_, rfl⟩
    unfold Token.get_encrypted_vector
    rw [if_pos h1]
    have hv : tok.doc.vocab.vectors.getItem tok.text = Except.ok v := hok
    rw [hv]

/-- Witness for C10: two workers are at least two, and on the sample token
Alice both parts of the refinement hold, by the theorem at this concrete
token. -/
theorem get_encrypted_vector_refines_vector_witness :
    2 ≤ [workerA, workerB].length ∧
      (sampleToken.get_encrypted_vector [workerA, workerB] none true).1 =
        Except.map (fun v => (share (fix_precision v) [workerA, workerB] none true).1)
          sampleToken.vector :=
  ⟨by decide,
    (get_encrypted_vector_refines_vector sampleToken [workerA, workerB] none true (by decide)).1⟩

end SyferText
